import Mathlib

/-!
Verification of the PDF stamping / layout engine of the school
administration system (`src/utils/pdfStamper.ts`, `src/components/LeaveSystem.tsx`).

Measured widths and page coordinates are modelled as rationals; a font is
modelled by its metric function `String → ℚ → ℚ` (text, size ↦ measured width),
mirroring `font.widthOfTextAtSize(text, size)` of the PDF primitive library.
-/

/-- Greedy character-wise line accumulation, the loop body of
`splitTextIntoLines` (pdfStamper.ts lines 50-60): `currentLine` starts seeded,
and before each next character we measure `currentLine + word`; if the measured
width is `< maxWidth` we append, otherwise the current line is emitted and the
character seeds a fresh line.  The final `currentLine` is always emitted. -/
def splitRun (w : List Char → ℚ) (maxWidth : ℚ) : List Char → List Char → List (List Char)
  | [], currentLine => [currentLine]
  | word :: rest, currentLine =>
    if w (currentLine ++ [word]) < maxWidth then
      splitRun w maxWidth rest (currentLine ++ [word])
    else
      currentLine :: splitRun w maxWidth rest [word]

/-- The function `splitTextIntoLines(text, maxWidth, fontSize, font)` from pdfStamper.ts
lines 44-62: empty text gives no lines; otherwise the first character seeds the
first line unconditionally and the remaining characters are accumulated
greedily. -/
def splitTextIntoLines (text : String) (maxWidth fontSize : ℚ) (font : String → ℚ → ℚ) : List String :=
  if text = "" then []
  else
    match text.toList with
    | [] => []
    | c :: rest => (splitRun (fun l => font (String.mk l) fontSize) maxWidth rest [c]).map String.mk

theorem splitRun_flatten (w : List Char → ℚ) (m : ℚ) :
    ∀ (words cur : List Char), (splitRun w m words cur).flatten = cur ++ words := by
  intro words
  induction words with
  | nil => intro cur; simp [splitRun]
  | cons a rest ih =>
    intro cur
    rw [splitRun]
    split
    · rw [ih]; simp
    · rw [List.flatten_cons, ih]; simp

theorem splitRun_width (w : List Char → ℚ) (m : ℚ) :
    ∀ (words cur : List Char), (∀ c ∈ words, w [c] < m) → w cur < m →
      ∀ l ∈ splitRun w m words cur, w l < m := by
  intro words
  induction words with
  | nil =>
    intro cur _ hcur l hl
    simp [splitRun] at hl
    simpa [hl] using hcur
  | cons a rest ih =>
    intro cur hchars hcur l hl
    rw [splitRun] at hl
    split at hl
    · exact ih _ (fun c hc => hchars c (List.mem_cons_of_mem _ hc)) (by assumption) l hl
    · rcases List.mem_cons.mp hl with h | h
      · simpa [h] using hcur
      · exact ih [a] (fun c hc => hchars c (List.mem_cons_of_mem _ hc))
          (hchars a (List.mem_cons_self _ _)) l h

theorem string_mk_append (a b : List Char) : String.mk a ++ String.mk b = String.mk (a ++ b) := rfl

theorem flatten_map_mk_aux : ∀ (ll : List (List Char)) (acc : String),
    (ll.map String.mk).foldl (· ++ ·) acc = acc ++ String.mk ll.flatten := by
  intro ll
  induction ll with
  | nil =>
    intro acc
    show acc = acc ++ String.mk []
    cases acc with
    | mk d => show String.mk d = String.mk (d ++ []); simp
  | cons a rest ih =>
    intro acc
    show (rest.map String.mk).foldl (· ++ ·) (acc ++ String.mk a) = acc ++ String.mk ((a :: rest).flatten)
    rw [ih]
    cases acc with
    | mk d =>
      show String.mk ((d ++ a) ++ rest.flatten) = String.mk (d ++ (a :: rest).flatten)
      simp

theorem flatten_map_mk (ll : List (List Char)) :
    String.join (ll.map String.mk) = String.mk ll.flatten := by
  show (ll.map String.mk).foldl (· ++ ·) "" = String.mk ll.flatten
  rw [flatten_map_mk_aux]
  rfl

/-- C1: for non-empty `text` whose every single character measures strictly
below `maxWidth`, every line produced by `splitTextIntoLines` measures strictly
below `maxWidth`, and the in-order concatenation of the lines is exactly
`text`. -/
theorem splitTextIntoLines_sound (text : String) (maxWidth fontSize : ℚ)
    (font : String → ℚ → ℚ) (hne : text ≠ "")
    (hchar : ∀ c ∈ text.toList, font (String.singleton c) fontSize < maxWidth) :
    (∀ line ∈ splitTextIntoLines text maxWidth fontSize font, font line fontSize < maxWidth)
    ∧ String.join (splitTextIntoLines text maxWidth fontSize font) = text := by
  cases text with
  | mk data =>
    cases data with
    | nil => exact absurd rfl hne
    | cons c rest =>
      have hne' : String.mk (c :: rest) ≠ "" := hne
      have hmk : splitTextIntoLines (String.mk (c :: rest)) maxWidth fontSize font
          = (splitRun (fun l => font (String.mk l) fontSize) maxWidth rest [c]).map String.mk := by
        rw [splitTextIntoLines, if_neg hne']
        rfl
      constructor
      · intro line hline
        rw [hmk] at hline
        rcases List.mem_map.mp hline with ⟨l, hl, hml⟩
        have hw := splitRun_width (fun l => font (String.mk l) fontSize) maxWidth rest [c]
          (fun d hd => hchar d (List.mem_cons_of_mem _ hd))
          (hchar c (List.mem_cons_self _ _)) l hl
        rw [← hml]
        exact hw
      · rw [hmk, flatten_map_mk, splitRun_flatten]
        rfl

/-- Witness font metric: the measured width of a string is its length,
independent of the font size. -/
def lenFont : String → ℚ → ℚ := fun s _ => (s.length : ℚ)

theorem splitTextIntoLines_sound_witness :
    (∀ line ∈ splitTextIntoLines "abc" 2 1 lenFont, lenFont line 1 < 2)
    ∧ String.join (splitTextIntoLines "abc" 2 1 lenFont) = "abc" :=
  splitTextIntoLines_sound "abc" 2 1 lenFont (by decide) (by decide)

/-- C2: wrapping the empty string yields the empty sequence of lines, for every
width, size and metrics provider. -/
theorem splitTextIntoLines_empty (maxWidth fontSize : ℚ) (font : String → ℚ → ℚ) :
    splitTextIntoLines "" maxWidth fontSize font = [] := rfl

/-- JS method `String.prototype.split` with a one-character separator, modelled on
character lists: `splitOnChar ',' "a,b"` is `[['a'], ['b']]`. -/
def splitOnChar (sep : Char) : List Char → List (List Char)
  | [] => [[]]
  | c :: rest =>
    let r := splitOnChar sep rest
    if c = sep then [] :: r
    else (c :: r.headD []) :: r.tail

theorem splitOnChar_not_mem (sep : Char) :
    ∀ l : List Char, sep ∉ l → splitOnChar sep l = [l] := by
  intro l
  induction l with
  | nil => intro _; rfl
  | cons c rest ih =>
    intro h
    have hc : ¬ c = sep := fun e => h (e ▸ List.mem_cons_self _ _)
    rw [splitOnChar]
    simp only [if_neg hc, ih (fun hm => h (List.mem_cons_of_mem _ hm))]
    rfl

/-- Modelled from the host platform: value of a base64 alphabet character. -/
def base64CharVal (c : Char) : Option Nat :=
  if 'A' ≤ c ∧ c ≤ 'Z' then some (c.toNat - 65)
  else if 'a' ≤ c ∧ c ≤ 'z' then some (c.toNat - 97 + 26)
  else if '0' ≤ c ∧ c ≤ '9' then some (c.toNat - 48 + 52)
  else if c = '+' then some 62
  else if c = '/' then some 63
  else none

/-- Decode a list of 6-bit base64 values into bytes: every full group of four
values yields three bytes, a trailing pair yields one byte, a trailing triple
yields two, and a lone trailing value is invalid. -/
def decodeBase64Vals : List Nat → Option (List Nat)
  | [] => some []
  | [_] => none
  | [a, b] => some [a * 4 + b / 16]
  | [a, b, c] => some [a * 4 + b / 16, (b % 16) * 16 + c / 4]
  | a :: b :: c :: d :: rest =>
    (decodeBase64Vals rest).map
      (fun t => (a * 4 + b / 16) :: ((b % 16) * 16 + c / 4) :: ((c % 4) * 64 + d) :: t)

def isAsciiWhitespace (c : Char) : Bool :=
  c = ' ' ∨ c = '\t' ∨ c = '\n' ∨ c = '\r' ∨ c = '\x0C'

/-- Modelled from the host platform: `atob` (WHATWG forgiving-base64 decode).
ASCII whitespace is stripped; when the length is a multiple of four up to two
trailing `=` are stripped; a length congruent to 1 mod 4 or any character
outside the base64 alphabet is an error (`none`); otherwise the 6-bit groups
are decoded into bytes. -/
def atob (s : String) : Option (List Nat) :=
  let cs0 := s.toList.filter (fun c => !isAsciiWhitespace c)
  let cs :=
    if cs0.length % 4 = 0 then
      let r0 := cs0.reverse
      let r1 := if r0.headD ' ' = '=' then r0.tail else r0
      let r2 := if r1.headD ' ' = '=' then r1.tail else r1
      r2.reverse
    else cs0
  if cs.length % 4 = 1 then none
  else
    match cs.mapM base64CharVal with
    | none => none
    | some vals => decodeBase64Vals vals

/-- The helper `dataURItoUint8Array` from pdfStamper.ts lines 7-23: empty input gives an
empty buffer; the string is split on commas and the second segment (when a
comma is present) or the whole string is base64-decoded; any decode failure is
caught and an empty buffer returned. -/
def dataURItoUint8Array (dataURI : String) : List Nat :=
  if dataURI = "" then []
  else
    let split := (splitOnChar ',' dataURI.toList).map String.mk
    let base64 := if h : 1 < split.length then split.get ⟨1, h⟩ else dataURI
    match atob base64 with
    | some bytes => bytes
    | none => []

/-- C7: the data-URI decoder is total; a bare base64 string with no comma is
decoded whole (yielding the empty buffer exactly when the platform decode
fails), the malformed input "not-base64!!" yields the empty buffer, and both a
bare and a prefixed payload decode to the payload bytes. -/
theorem dataURItoUint8Array_robust :
    (∀ s : String, s ≠ "" → (',') ∉ s.toList → dataURItoUint8Array s = (atob s).getD [])
    ∧ dataURItoUint8Array "not-base64!!" = []
    ∧ dataURItoUint8Array "QUJD" = [65, 66, 67]
    ∧ dataURItoUint8Array "data:application/pdf;base64,QUJD" = [65, 66, 67] := by
  refine ⟨?_, by decide, by decide, by decide⟩
  intro s hne hcomma
  rw [dataURItoUint8Array, if_neg hne]
  simp only [splitOnChar_not_mem ',' s.toList hcomma]
  have hlen : ¬ 1 < (List.map String.mk [s.toList]).length := by simp
  rw [dif_neg hlen]
  cases h : atob s with
  | none => simp [h]
  | some bytes => simp [h]

theorem dataURItoUint8Array_robust_witness :
    dataURItoUint8Array "!!!!" = (atob "!!!!").getD [] :=
  dataURItoUint8Array_robust.1 "!!!!" (by decide) (by decide)

/-- JS disjunction `a || b` on an optional string: the default is used when the value is
absent or empty (the empty string is falsy). -/
def jsOr (o : Option String) (d : String) : String :=
  match o with
  | some s => if s = "" then d else s
  | none => d

/-- An embedded raster image, by its intrinsic width and height. -/
structure PdfImage where
  w : ℚ
  h : ℚ
deriving DecidableEq

/-- The pdf-lib method `scaleToFit(width, height)`: scale by the smaller of the two axis
ratios, preserving aspect ratio. -/
def scaleToFit (img : PdfImage) (maxW maxH : ℚ) : ℚ × ℚ :=
  let s := min (maxW / img.w) (maxH / img.h)
  (img.w * s, img.h * s)

/-- A placement operation applied to a page: bordered rectangle, text run, or
image. -/
inductive PdfOp where
  | rect (x y w h : ℚ)
  | text (s : String) (x y size : ℚ)
  | image (x y w h : ℚ)
deriving DecidableEq

def PdfOp.isImage : PdfOp → Bool
  | .image _ _ _ _ => true
  | _ => false

/-- Substring test on character lists, modelling JS `String.prototype.includes`. -/
def listContainsSub (sub : List Char) : List Char → Bool
  | [] => sub.isEmpty
  | c :: rest => sub.isPrefixOf (c :: rest) || listContainsSub sub rest

def strIncludes (s sub : String) : Bool := listContainsSub sub.toList s.toList

/-- The label:value row helper of `stampReceiveNumber` (pdfStamper.ts lines
142-147): bold label at the text origin, regular value immediately after it,
both on the same baseline. -/
def drawLabelValue (fontBold : String → ℚ → ℚ) (fontSize textX y : ℚ)
    (label value : String) : List PdfOp :=
  [PdfOp.text label textX y fontSize,
   PdfOp.text value (textX + fontBold label fontSize) y fontSize]

/-- The composer `stampReceiveNumber` (pdfStamper.ts lines 91-159) as the sequence of page
operations it performs on page 1: fixed 200x90 box at the top-right corner,
school-name header, then receive-number, date and time rows.  The
`schoolLogoBase64` argument mirrors the source option of the same name, which
the source destructures but never reads again. -/
def stampReceiveNumberOps (pageWidth pageHeight : ℚ) (bookNumber date time : String)
    (schoolName : Option String) (schoolLogoBase64 : Option String)
    (fontBold : String → ℚ → ℚ) : List PdfOp :=
  let fontSize : ℚ := 14
  let lineHeight : ℚ := 18
  let boxWidth : ℚ := 200
  let boxHeight : ℚ := 90
  let margin : ℚ := 20
  let x := pageWidth - boxWidth - margin
  let y := pageHeight - boxHeight - margin
  let textX := x + 15
  let y1 := y + boxHeight - 22
  let school := jsOr schoolName "โรงเรียน..................."
  [PdfOp.rect x y boxWidth boxHeight,
   PdfOp.text school textX y1 fontSize]
  ++ drawLabelValue fontBold fontSize textX (y1 - lineHeight) "เลขรับที่ : " bookNumber
  ++ drawLabelValue fontBold fontSize textX (y1 - lineHeight - lineHeight) "วันที่ : " date
  ++ drawLabelValue fontBold fontSize textX (y1 - lineHeight - lineHeight - lineHeight) "เวลา : " time

/-- C5 counterexample: at a concrete input with a school logo supplied,
`stampReceiveNumber` draws no image operation at all, so the logo is not
embedded and not placed to the left of the header. -/
theorem stampReceiveNumber_logo_not_drawn :
    (stampReceiveNumberOps 595 842 "123" "1 ต.ค. 2566" "09:00" (some "โรงเรียนทดสอบ")
        (some "data:image/png;base64,QUJD") lenFont).all (fun op => !op.isImage) = true := by
  decide

/-- C5 amended: the receive-number stamp ignores the logo payload entirely: the
output is identical for any two logo arguments, contains no image placement,
and the school-name header always sits at the fixed text origin (box x + 15),
never shifted right. -/
theorem stampReceiveNumber_ignores_logo (pageWidth pageHeight : ℚ)
    (bookNumber date time : String) (schoolName : Option String)
    (logoA logoB : Option String) (fontBold : String → ℚ → ℚ) :
    stampReceiveNumberOps pageWidth pageHeight bookNumber date time schoolName logoA fontBold
      = stampReceiveNumberOps pageWidth pageHeight bookNumber date time schoolName logoB fontBold
    ∧ (stampReceiveNumberOps pageWidth pageHeight bookNumber date time schoolName logoA
        fontBold).all (fun op => !op.isImage) = true
    ∧ (stampReceiveNumberOps pageWidth pageHeight bookNumber date time schoolName logoA
        fontBold).get? 1
      = some (PdfOp.text (jsOr schoolName "โรงเรียน...................")
          (pageWidth - 200 - 20 + 15) (pageHeight - 90 - 20 + 90 - 22) 14) :=
  ⟨rfl, rfl, rfl⟩

/-- Digits-only parse of a natural number. -/
def parseNatDigits (l : List Char) : Option Nat :=
  if l ≠ [] ∧ l.all Char.isDigit then
    some (l.foldl (fun a c => a * 10 + (c.toNat - 48)) 0)
  else none

/-- Days since 1970-01-01 of a proleptic Gregorian date (civil-days algorithm). -/
def daysFromCivil (y m d : Int) : Int :=
  let y2 := if m ≤ 2 then y - 1 else y
  let era := (if 0 ≤ y2 then y2 else y2 - 399) / 400
  let yoe := y2 - era * 400
  let mp := (m + 9) % 12
  let doy := (153 * mp + 2) / 5 + d - 1
  let doe := yoe * 365 + yoe / 4 - yoe / 100 + doy
  era * 146097 + doe - 719468

/-- Modelled from the host platform: ECMAScript `Date` parsing of an ISO
`YYYY-MM-DD` date-only string, which yields UTC midnight of that day; returned
as a count of days since the Unix epoch, `none` for an unparsable string (the
NaN date). -/
def parseIsoDate (s : String) : Option Int :=
  match splitOnChar '-' s.toList with
  | [ys, ms, ds] =>
    match parseNatDigits ys, parseNatDigits ms, parseNatDigits ds with
    | some y, some m, some d => some (daysFromCivil y m d)
    | _, _, _ => none
  | _ => none

/-- Modelled from the host platform: `new Date(s).getTime()`, milliseconds
since the Unix epoch. -/
def getTimeMs (s : String) : Option Int := (parseIsoDate s).map (· * 86400000)

/-- The helper `calculateDays` from LeaveSystem.tsx lines 162-167: 0 when either date
string is empty, otherwise `Math.ceil(|end - start| / 86400000) + 1` on the
parsed millisecond timestamps; `none` models the NaN result of an unparsable
date. -/
def calculateDays (start finish : String) : Option Int :=
  if start = "" ∨ finish = "" then some 0
  else
    match getTimeMs start, getTimeMs finish with
    | some s, some e => some (⌈(((e - s).natAbs : ℚ) / 86400000)⌉ + 1)
    | _, _ => none

theorem calculateDays_formula (s e : String) (ds de : Int)
    (hs : s ≠ "") (he : e ≠ "")
    (hps : parseIsoDate s = some ds) (hpe : parseIsoDate e = some de) :
    calculateDays s e = some (((de - ds).natAbs : Int) + 1) := by
  rw [calculateDays, if_neg (by simp [hs, he])]
  rw [getTimeMs, getTimeMs, hps, hpe]
  simp only [Option.map_some']
  congr 1
  have h1 : de * 86400000 - ds * 86400000 = (de - ds) * 86400000 := by ring
  rw [h1]
  have h2 : ((de - ds) * 86400000).natAbs = (de - ds).natAbs * 86400000 := by
    rw [Int.natAbs_mul]
    rfl
  rw [h2]
  have h3 : (((de - ds).natAbs * 86400000 : ℕ) : ℚ) / 86400000 = ((de - ds).natAbs : ℚ) := by
    push_cast
    field_simp
  rw [h3, Int.ceil_natCast]

/-- C8: for parsable non-empty date strings, `calculateDays` is the inclusive
date difference: the absolute difference of the two dates in whole days, plus
one; in particular the range 2023-09-15 to 2023-09-16 counts 2 days. -/
theorem calculateDays_inclusive (s e : String) (ds de : Int)
    (hs : s ≠ "") (he : e ≠ "")
    (hps : parseIsoDate s = some ds) (hpe : parseIsoDate e = some de) :
    calculateDays s e = some (((de - ds).natAbs : Int) + 1)
    ∧ calculateDays "2023-09-15" "2023-09-16" = some 2 := by
  refine ⟨calculateDays_formula s e ds de hs he hps hpe, ?_⟩
  have h := calculateDays_formula "2023-09-15" "2023-09-16" 19615 19616
    (by decide) (by decide) (by decide) (by decide)
  exact h.trans (by decide)

theorem calculateDays_inclusive_witness :
    calculateDays "2023-09-15" "2023-09-16" = some ((((19616 : Int) - 19615).natAbs : Int) + 1) :=
  (calculateDays_inclusive "2023-09-15" "2023-09-16" 19615 19616 (by decide) (by decide)
    (by decide) (by decide)).1

/-- The inline first-line loop of `drawParagraphContinuous` (pdfStamper.ts
lines 344-359): greedily move characters into the first line while the test
width stays strictly below the available width; returns the first line and the
unconsumed characters. -/
def consumeFirstLine (w : List Char → ℚ) (availableWidth : ℚ) :
    List Char → List Char → List Char × List Char
  | [], line => (line, [])
  | word :: rest, line =>
    if w (line ++ [word]) < availableWidth then
      consumeFirstLine w availableWidth rest (line ++ [word])
    else
      (line, word :: rest)

/-- Draw a list of wrapped lines flush at the margin, advancing the cursor one
line height per line (pdfStamper.ts lines 368-372). -/
def placeLines (fontSize margin lineHeight : ℚ) : List String → ℚ → List PdfOp × ℚ
  | [], y => ([], y)
  | l :: rest, y =>
    (PdfOp.text l margin y fontSize
        :: (placeLines fontSize margin lineHeight rest (y - lineHeight)).1,
     (placeLines fontSize margin lineHeight rest (y - lineHeight)).2)

/-- The paragraph engine `drawParagraphContinuous` (pdfStamper.ts lines 339-376): the first line is
consumed inline against `contentWidth` minus the indent (when `hasIndent`) and
drawn at `margin + indent`, or against the full `contentWidth` and drawn at
`margin`; the leftover characters are wrapped by `splitTextIntoLines` at the
full `contentWidth`, each resulting line drawn at the plain margin; returns the
emitted draws and the final cursor y. -/
def drawParagraphContinuous (font : String → ℚ → ℚ)
    (fontSize lineHeight margin contentWidth indent : ℚ)
    (text : String) (startY : ℚ) (hasIndent : Bool) : List PdfOp × ℚ :=
  let availableWidth := contentWidth - (if hasIndent then indent else 0)
  let fl := consumeFirstLine (fun l => font (String.mk l) fontSize) availableWidth text.toList []
  let firstDraw := PdfOp.text (String.mk fl.1)
    (if hasIndent then margin + indent else margin) startY fontSize
  let curY := startY - lineHeight
  let remainingText := String.mk fl.2
  if remainingText.length > 0 then
    let r := placeLines fontSize margin lineHeight
      (splitTextIntoLines remainingText contentWidth fontSize font) curY
    (firstDraw :: r.1, r.2)
  else
    ([firstDraw], curY)

theorem consumeFirstLine_width (w : List Char → ℚ) (avail : ℚ) :
    ∀ (words line : List Char), w line < avail →
      w (consumeFirstLine w avail words line).1 < avail := by
  intro words
  induction words with
  | nil => intro line h; simpa [consumeFirstLine] using h
  | cons a rest ih =>
    intro line h
    rw [consumeFirstLine]
    split
    · exact ih _ (by assumption)
    · simpa using h

theorem placeLines_shape (fontSize margin lineHeight : ℚ) :
    ∀ (ls : List String) (y : ℚ), ∀ op ∈ (placeLines fontSize margin lineHeight ls y).1,
      ∃ l y2, op = PdfOp.text l margin y2 fontSize := by
  intro ls
  induction ls with
  | nil => intro y op hop; simp [placeLines] at hop
  | cons a rest ih =>
    intro y op hop
    rw [placeLines] at hop
    rcases List.mem_cons.mp hop with h | h
    · exact ⟨a, y, h⟩
    · exact ih (y - lineHeight) op h

/-- C3: for non-empty text each of whose characters fits the first-line
budget, the paragraph engine draws its first line at `margin + indent` when
`hasIndent` is true and at the plain `margin` when it is false, that first
line measures strictly within `contentWidth` minus the indent (resp. the full
`contentWidth`), and every subsequent wrapped line is drawn at the plain
`margin`. -/
theorem drawParagraphContinuous_layout (font : String → ℚ → ℚ)
    (fontSize lineHeight margin contentWidth indent : ℚ) (text : String) (startY : ℚ)
    (hasIndent : Bool) (hne : text ≠ "")
    (hchar : ∀ c ∈ text.toList,
      font (String.singleton c) fontSize < contentWidth - (if hasIndent then indent else 0)) :
    ∃ firstLine restDraws,
      (drawParagraphContinuous font fontSize lineHeight margin contentWidth indent
          text startY hasIndent).1
        = PdfOp.text firstLine (if hasIndent then margin + indent else margin) startY fontSize
            :: restDraws
      ∧ font firstLine fontSize < contentWidth - (if hasIndent then indent else 0)
      ∧ ∀ op ∈ restDraws, ∃ l y, op = PdfOp.text l margin y fontSize := by
  cases text with
  | mk data =>
    cases data with
    | nil => exact absurd rfl hne
    | cons c rest =>
      have htl : (String.mk (c :: rest)).toList = c :: rest := rfl
      cases hasIndent with
      | false =>
        rw [drawParagraphContinuous]
        simp only [htl, Bool.false_eq_true, if_false, sub_zero] at hchar ⊢
        have h0 : font (String.mk [c]) fontSize < contentWidth :=
          hchar c (List.mem_cons_self _ _)
        have hstep : consumeFirstLine (fun l => font (String.mk l) fontSize) contentWidth
              (c :: rest) []
            = consumeFirstLine (fun l => font (String.mk l) fontSize) contentWidth rest [c] := by
          rw [consumeFirstLine]
          simp only [List.nil_append]
          rw [if_pos h0]
        have hw := consumeFirstLine_width (fun l => font (String.mk l) fontSize)
          contentWidth rest [c] h0
        rw [hstep]
        split
        · exact ⟨_, _, rfl, hw, fun op hop => placeLines_shape _ _ _ _ _ op hop⟩
        · exact ⟨_, [], rfl, hw, by simp⟩
      | true =>
        rw [drawParagraphContinuous]
        simp only [htl, if_true] at hchar ⊢
        have h0 : font (String.mk [c]) fontSize < contentWidth - indent :=
          hchar c (List.mem_cons_self _ _)
        have hstep : consumeFirstLine (fun l => font (String.mk l) fontSize)
              (contentWidth - indent) (c :: rest) []
            = consumeFirstLine (fun l => font (String.mk l) fontSize)
              (contentWidth - indent) rest [c] := by
          rw [consumeFirstLine]
          simp only [List.nil_append]
          rw [if_pos h0]
        have hw := consumeFirstLine_width (fun l => font (String.mk l) fontSize)
          (contentWidth - indent) rest [c] h0
        rw [hstep]
        split
        · exact ⟨_, _, rfl, hw, fun op hop => placeLines_shape _ _ _ _ _ op hop⟩
        · exact ⟨_, [], rfl, hw, by simp⟩

theorem drawParagraphContinuous_layout_witness :
    ∃ firstLine restDraws,
      (drawParagraphContinuous lenFont 1 2 5 3 1 "abcd" 100 true).1
        = PdfOp.text firstLine (if true then (5 : ℚ) + 1 else 5) 100 1 :: restDraws
      ∧ lenFont firstLine 1 < 3 - (if true then (1 : ℚ) else 0)
      ∧ ∀ op ∈ restDraws, ∃ l y, op = PdfOp.text l 5 y 1 :=
  drawParagraphContinuous_layout lenFont 1 2 5 3 1 "abcd" 100 true (by decide)
    (by
      intro c _
      show ((1 : ℕ) : ℚ) < 3 - if true = true then (1 : ℚ) else 0
      norm_num)

/-- Points per centimetre, 28.35 (pdfStamper.ts line 216). -/
def cmToPoints : ℚ := 2835 / 100

/-- Command-text lines of the director-command stamp (pdfStamper.ts lines
227-230): the command text is split on explicit newlines and each segment is
wrapped at the box width 260 minus the 10 point padding, at font size 14. -/
def commandLines (commandText : String) (font : String → ℚ → ℚ) : List String :=
  ((splitOnChar '\n' commandText.toList).map
    (fun seg => splitTextIntoLines (String.mk seg) (260 - 10) 14 font)).flatten

/-- Director-command box height (pdfStamper.ts lines 232-236): the maximum of
the 3 cm base height and text block + signature block (85) + padding (15). -/
def newBoxHeight (commandText : String) (font : String → ℚ → ℚ) : ℚ :=
  max (3 * cmToPoints)
    ((commandLines commandText font).length * (14 * (105 / 100)) + 85 + 15)

/-- Command lines drawn top-down inside the box (pdfStamper.ts lines 244-248). -/
def drawCommandLines (boxX fontSize lineHeight : ℚ) : List String → ℚ → List PdfOp
  | [], _ => []
  | l :: rest, y =>
    PdfOp.text l (boxX + 8) y fontSize
      :: drawCommandLines boxX fontSize lineHeight rest (y - lineHeight)

/-- The composer `stampPdfDocument` (pdfStamper.ts lines 178-294) as the sequence of page
operations on the target page: the auto-sized bottom-right box, the wrapped
command lines, then the centered footer stack (date, school name, optional
logo, parenthesized director name, optional signature).  `embedPng`/`embedJpg`
model the decoder of the PDF primitive library, `none` meaning the embed
throws; both the logo and the signature embed failures are caught locally.
`todayText` stands for the formatted current date. -/
def stampPdfDocumentOps (pageWidth : ℚ) (commandText directorName : String)
    (schoolName schoolLogoBase64 signatureImageBase64 : Option String)
    (signatureScale signatureYOffset : ℚ) (todayText : String)
    (embedPng embedJpg : List Nat → Option PdfImage)
    (font : String → ℚ → ℚ) : List PdfOp :=
  let bottomMargin := (1 / 2 : ℚ) * cmToPoints
  let rightMargin := (1 / 2 : ℚ) * cmToPoints
  let boxWidth : ℚ := 260
  let boxX := pageWidth - boxWidth - rightMargin
  let fontSize : ℚ := 14
  let lineHeight := fontSize * (105 / 100)
  let boxHeight := newBoxHeight commandText font
  let newBoxY := bottomMargin
  let boxOp := PdfOp.rect boxX newBoxY boxWidth boxHeight
  let cmdOps := drawCommandLines boxX fontSize lineHeight (commandLines commandText font)
    (newBoxY + boxHeight - 20)
  let centerX := boxX + boxWidth / 2
  let footerY0 := newBoxY + 10
  let dateOp := PdfOp.text todayText (centerX - font todayText fontSize / 2) footerY0 fontSize
  let footerY1 := footerY0 + lineHeight
  let schoolText := jsOr schoolName "โรงเรียน..................."
  let schoolOp := PdfOp.text schoolText (centerX - font schoolText fontSize / 2) footerY1 fontSize
  let logoStep : List PdfOp × ℚ :=
    match schoolLogoBase64 with
    | some logo =>
      if logo = "" then ([], footerY1 + lineHeight)
      else
        match (if strIncludes logo "png" then embedPng (dataURItoUint8Array logo)
               else embedJpg (dataURItoUint8Array logo)) with
        | some img =>
          let d := scaleToFit img 30 30
          ([PdfOp.image (centerX - d.1 / 2) (footerY1 + lineHeight) d.1 d.2],
           footerY1 + (d.2 + 5))
        | none => ([], footerY1 + lineHeight)
    | none => ([], footerY1 + lineHeight)
  let footerY2 := logoStep.2
  let nameText := "( " ++ directorName ++ " )"
  let nameOp := PdfOp.text nameText (centerX - font nameText fontSize / 2) footerY2 fontSize
  let footerY3 := footerY2 + (lineHeight + 5)
  let sigOps : List PdfOp :=
    match signatureImageBase64 with
    | some sig =>
      if sig = "" then []
      else
        match embedPng (dataURItoUint8Array sig) with
        | some img =>
          let sc := if signatureScale = 0 then 1 else signatureScale
          let d := scaleToFit img (80 * sc) (40 * sc)
          [PdfOp.image (centerX - d.1 / 2) (footerY3 + signatureYOffset) d.1 d.2]
        | none => []
    | none => []
  boxOp :: cmdOps ++ (dateOp :: schoolOp :: logoStep.1) ++ (nameOp :: sigOps)

/-- C4: the director-command stamp draws its box with height exactly
`max(3 cm in points, N * lineHeight + 85 + 15)`, where `N` is the number of
lines obtained by splitting the command text on newlines and wrapping each
segment at the box width minus its padding; hence the box height is at least
`N * lineHeight + signature reserve + padding` for every command text. -/
theorem stampPdfDocument_boxHeight (pageWidth : ℚ) (commandText directorName : String)
    (schoolName schoolLogoBase64 signatureImageBase64 : Option String)
    (signatureScale signatureYOffset : ℚ) (todayText : String)
    (embedPng embedJpg : List Nat → Option PdfImage) (font : String → ℚ → ℚ) :
    (stampPdfDocumentOps pageWidth commandText directorName schoolName schoolLogoBase64
        signatureImageBase64 signatureScale signatureYOffset todayText embedPng embedJpg
        font).head?
      = some (PdfOp.rect (pageWidth - 260 - (1 / 2) * cmToPoints) ((1 / 2) * cmToPoints) 260
          (newBoxHeight commandText font))
    ∧ newBoxHeight commandText font
      = max (3 * cmToPoints)
          ((commandLines commandText font).length * (14 * (105 / 100)) + 85 + 15)
    ∧ (commandLines commandText font).length * (14 * (105 / 100)) + 85 + 15
      ≤ newBoxHeight commandText font :=
  ⟨rfl, rfl, le_max_right _ _⟩

structure Teacher where
  name : String
  position : String

structure LastLeave where
  startDate : String
  endDate : String

/-- The statistics bundle assembled by `generatePdf` in LeaveSystem.tsx lines
133-140: the day count of this request and the prior aggregates by category. -/
structure LeaveStats where
  currentDays : Int
  prevSick : Int
  prevPersonal : Int
  prevMaternity : Int
  prevLate : Int
  prevOffCampus : Int
  lastLeave : Option LastLeave
  lastLeaveDays : Int

structure LeaveRequest where
  type : String
  status : String
  startDate : String
  endDate : String
  startTime : Option String
  endTime : Option String
  reason : String
  contactInfo : Option String
  mobilePhone : Option String
  approvedDate : Option String

/-- Thai month names (pdfStamper.ts lines 66-69). -/
def thaiMonths : List String :=
  ["มกราคม", "กุมภาพันธ์", "มีนาคม", "เมษายน", "พฤษภาคม", "มิถุนายน",
   "กรกฎาคม", "สิงหาคม", "กันยายน", "ตุลาคม", "พฤศจิกายน", "ธันวาคม"]

/-- Modelled from the host platform: ECMAScript `Date` field extraction for an
ISO date string, as (year, month 1-12, day). -/
def parseIsoYMD (s : String) : Option (Nat × Nat × Nat) :=
  match splitOnChar '-' s.toList with
  | [ys, ms, ds] =>
    match parseNatDigits ys, parseNatDigits ms, parseNatDigits ds with
    | some y, some m, some d => some (y, m, d)
    | _, _, _ => none
  | _ => none

/-- The helper `formatDateThaiStr` (pdfStamper.ts lines 64-79): dot-fill for an empty
string, otherwise day, Thai month name and Buddhist-era year. -/
def formatDateThaiStr (dateStr : String) : String :=
  if dateStr = "" then "...................."
  else
    match parseIsoYMD dateStr with
    | some (y, m, d) =>
      toString d ++ " " ++ thaiMonths.getD (m - 1) "undefined" ++ " " ++ toString (y + 543)
    | none => "NaN undefined NaN"

/-- The mapping `getLeaveTypeName` inside `generateOfficialLeavePdf` (pdfStamper.ts lines
430-433). -/
def getLeaveTypeName (ty : String) : String :=
  if ty = "Sick" then "ป่วย"
  else if ty = "Personal" then "กิจส่วนตัว"
  else if ty = "OffCampus" then "ออกนอกบริเวณ"
  else if ty = "Late" then "เข้าสาย"
  else if ty = "Maternity" then "คลอดบุตร"
  else ty

/-- The rendered data rows of the statistics table (pdfStamper.ts lines
568-588): for Late/OffCampus a single count row; otherwise one row per leave
category showing prior days, this-request days rendered as "-" when zero, and
their sum. -/
def renderedStatsTable (req : LeaveRequest) (stats : LeaveStats) :
    List (String × String × String × String) :=
  if req.type = "Late" ∨ req.type = "OffCampus" then
    let isLate := req.type = "Late"
    let prev := if isLate then stats.prevLate else stats.prevOffCampus
    [((if isLate then "สาย" else "ออกนอก"), toString prev, "1", toString (prev + 1))]
  else
    ([("ป่วย", stats.prevSick, if req.type = "Sick" then stats.currentDays else 0),
      ("กิจส่วนตัว", stats.prevPersonal, if req.type = "Personal" then stats.currentDays else 0),
      ("คลอดบุตร", stats.prevMaternity, if req.type = "Maternity" then stats.currentDays else 0)
     ] : List (String × Int × Int)).map
      (fun r => (r.1, toString r.2.1, if r.2.2 > 0 then toString r.2.2 else "-",
        toString (r.2.1 + r.2.2)))

/-- The helper `drawCell` (pdfStamper.ts lines 552-557): bordered cell rectangle plus its
text at 12 points, optionally centered. -/
def drawCell (font : String → ℚ → ℚ) (cellText : String) (x y w : ℚ)
    (alignCenter : Bool) : List PdfOp :=
  let rowHeight : ℚ := 20
  let textX := if alignCenter then x + (w - font cellText 12) / 2 else x + 5
  [PdfOp.rect x (y - rowHeight + 5) w rowHeight,
   PdfOp.text cellText textX (y - rowHeight + 10) 12]

/-- One table data row per rendered tuple, stepping the row cursor down by the
row height (pdfStamper.ts lines 574-588). -/
def dataRowsOps (font : String → ℚ → ℚ) (col1 col2 col3 col4 cellW : ℚ) :
    List (String × String × String × String) → ℚ → List PdfOp
  | [], _ => []
  | r :: rest, rowY =>
    drawCell font r.1 col1 rowY cellW false ++ drawCell font r.2.1 col2 rowY cellW true
      ++ drawCell font r.2.2.1 col3 rowY cellW true ++ drawCell font r.2.2.2 col4 rowY cellW true
      ++ dataRowsOps font col1 col2 col3 col4 cellW rest (rowY - 20)

/-- The statistics table of the leave form (pdfStamper.ts lines 540-588):
caption, header row and the rendered data rows. -/
def tableOps (req : LeaveRequest) (stats : LeaveStats) (font : String → ℚ → ℚ)
    (tableTop : ℚ) : List PdfOp :=
  let col1 : ℚ := 50
  let col2 := col1 + 60
  let col3 := col2 + 60
  let col4 := col3 + 60
  let cellW : ℚ := 60
  PdfOp.text "สถิติการลาในปีงบประมาณนี้" col1 (tableTop + 10) 14
    :: (drawCell font "ประเภท" col1 (tableTop - 10) cellW false
        ++ drawCell font "ลามาแล้ว" col2 (tableTop - 10) cellW true
        ++ drawCell font "ลาครั้งนี้" col3 (tableTop - 10) cellW true
        ++ drawCell font "รวมเป็น" col4 (tableTop - 10) cellW true
        ++ dataRowsOps font col1 col2 col3 col4 cellW (renderedStatsTable req stats)
            (tableTop - 10 - 20))

/-- The teacher signature block (pdfStamper.ts lines 511-523): an embedded
signature image when one is supplied and decodable, a dotted placeholder line
when none is supplied, and nothing at all when the embed throws (the catch
swallows the failure). -/
def teacherSignatureOps (teacherSignatureBase64 : Option String)
    (embedPng : List Nat → Option PdfImage) (font : String → ℚ → ℚ)
    (blockCenterX y : ℚ) : List PdfOp :=
  let dotLine := "(.......................................................)"
  let dotOps := [PdfOp.text dotLine (blockCenterX - font dotLine 16 / 2) (y + 10) 16]
  match teacherSignatureBase64 with
  | some sig =>
    if sig = "" then dotOps
    else
      match embedPng (dataURItoUint8Array sig) with
      | some img =>
        let d := scaleToFit img 100 40
        [PdfOp.image (blockCenterX - d.1 / 2) y d.1 d.2]
      | none => []
  | none => dotOps

/-- The bordered director decision box (pdfStamper.ts lines 590-643): header,
the two checkbox lines, the signature image only when the request is approved
and a decodable signature is supplied, then name, position and decision date. -/
def directorSectionOps (req : LeaveRequest) (directorName : String)
    (directorSignatureBase64 : Option String)
    (directorSignatureScale directorSignatureYOffset : ℚ)
    (embedPng : List Nat → Option PdfImage) (font : String → ℚ → ℚ)
    (tableTop pageWidth : ℚ) : List PdfOp :=
  let dirX := pageWidth / 2 + 20
  let dirBoxWidth : ℚ := 220
  let dirBoxHeight : ℚ := 160
  let dirBoxY := tableTop - dirBoxHeight + 20
  let y0 := dirBoxY + dirBoxHeight - 25
  let isApproved := req.status = "Approved"
  let y1 := y0 - 25
  let y2 := y1 - 20
  let y3 := y2 - 30
  let headerText := "ความเห็น / คำสั่ง"
  let approvedLine := if isApproved then "[ / ] อนุญาต" else "[   ] อนุญาต"
  let rejectLine :=
    if ¬ isApproved ∧ req.status = "Rejected" then "[ / ] ไม่อนุมัติ" else "[   ] ไม่อนุมัติ"
  let sigOps : List PdfOp :=
    if isApproved then
      match directorSignatureBase64 with
      | some sig =>
        if sig = "" then []
        else
          match embedPng (dataURItoUint8Array sig) with
          | some img =>
            let scale := if directorSignatureScale = 0 then 1 else directorSignatureScale
            let d := scaleToFit img (80 * scale) (40 * scale)
            [PdfOp.image (dirX + (dirBoxWidth - d.1) / 2) (y3 + directorSignatureYOffset) d.1 d.2]
          | none => []
      | none => []
    else []
  let nameText := "( " ++ directorName ++ " )"
  let posText := "ตำแหน่ง ผู้อำนวยการโรงเรียน"
  let approveDate :=
    match req.approvedDate with
    | some d => if d = "" then "....................................." else formatDateThaiStr d
    | none => "....................................."
  let dateText := "วันที่ " ++ approveDate
  [PdfOp.rect dirX dirBoxY dirBoxWidth dirBoxHeight,
   PdfOp.text headerText (dirX + (dirBoxWidth - font headerText 14) / 2) y0 14,
   PdfOp.text approvedLine (dirX + 20) y1 14,
   PdfOp.text rejectLine (dirX + 20) y2 14]
  ++ sigOps
  ++ [PdfOp.text nameText (dirX + (dirBoxWidth - font nameText 14) / 2) (y3 - 20) 14,
      PdfOp.text posText (dirX + (dirBoxWidth - font posText 14) / 2) (y3 - 20 - 15) 14,
      PdfOp.text dateText (dirX + (dirBoxWidth - font dateText 14) / 2) (y3 - 20 - 15 - 15) 14]

/-- The emblem section (pdfStamper.ts lines 378-400): a supplied payload is
embedded as png or jpeg by content sniffing, otherwise the remotely fetched
default emblem is used; any failure in the whole section is caught and the
emblem simply omitted.  `fetchedGaruda` models the result of fetching and
embedding the fallback emblem, `none` meaning that fetch or embed threw. -/
def garudaOps (officialGarudaBase64 : Option String) (fetchedGaruda : Option PdfImage)
    (embedPng embedJpg : List Nat → Option PdfImage) : List PdfOp :=
  let width : ℚ := 59528 / 100
  let height : ℚ := 84189 / 100
  let margin : ℚ := 50
  let imgOpt : Option PdfImage :=
    match officialGarudaBase64 with
    | some g =>
      if g = "" then fetchedGaruda
      else if strIncludes g "png" then embedPng (dataURItoUint8Array g)
      else embedJpg (dataURItoUint8Array g)
    | none => fetchedGaruda
  match imgOpt with
  | some img =>
    let d := scaleToFit img 60 60
    [PdfOp.image ((width - d.1) / 2) (height - margin - 60) d.1 d.2]
  | none => []

/-- The composer `generateOfficialLeavePdf` (pdfStamper.ts lines 312-645) as the sequence
of page operations on the single A4 page: emblem, bold centered title, the
right-aligned written-at pair and date line, subject and addressee lines, the
continuous three-sentence paragraph block, the contact paragraph, the closing
phrase, the teacher signature block, the statistics table and the director
decision box.  `todayLine` stands for the current-date header line. -/
def generateOfficialLeavePdfOps (req : LeaveRequest) (stats : LeaveStats) (teacher : Teacher)
    (schoolName directorName : String)
    (directorSignatureBase64 teacherSignatureBase64 officialGarudaBase64 : Option String)
    (directorSignatureScale directorSignatureYOffset : ℚ)
    (fetchedGaruda : Option PdfImage) (todayLine : String)
    (embedPng embedJpg : List Nat → Option PdfImage)
    (fontReg fontBold : String → ℚ → ℚ) : List PdfOp :=
  let width : ℚ := 59528 / 100
  let height : ℚ := 84189 / 100
  let fontSize : ℚ := 16
  let lineHeight : ℚ := 18
  let margin : ℚ := 50
  let contentWidth := width - 2 * margin
  let indent : ℚ := 60
  let y0 := height - margin - 80
  let formTitle :=
    if req.type = "Late" then "แบบขออนุญาตเข้าสาย"
    else if req.type = "OffCampus" then "แบบขออนุญาตออกนอกบริเวณโรงเรียน"
    else "แบบใบลาป่วย ลาคลอดบุตร ลากิจส่วนตัว"
  let titleOp := PdfOp.text formTitle ((width - fontBold formTitle 20) / 2) y0 20
  let y1 := y0 - 30
  let writeAt := "เขียนที่  "
  let writeAtWidth := fontBold writeAt fontSize + fontReg schoolName fontSize
  let writeAtX := width - margin - writeAtWidth - 20
  let writeAtOps := [PdfOp.text writeAt writeAtX y1 fontSize,
    PdfOp.text schoolName (writeAtX + fontBold writeAt fontSize) y1 fontSize]
  let y2 := y1 - lineHeight
  let dateOp := PdfOp.text todayLine (width / 2) y2 fontSize
  let y3 := y2 - lineHeight * 2
  let subjOps := [PdfOp.text "เรื่อง" margin y3 fontSize,
    PdfOp.text ("  ขออนุญาต" ++ getLeaveTypeName req.type)
      (margin + fontBold "เรื่อง" fontSize) y3 fontSize]
  let y4 := y3 - lineHeight - lineHeight
  let dearOps := [PdfOp.text "เรียน" margin y4 fontSize,
    PdfOp.text ("  ผู้อำนวยการ" ++ schoolName) (margin + fontBold "เรียน" fontSize) y4 fontSize]
  let y5 := y4 - lineHeight * 2
  let p1identity := "ข้าพเจ้า " ++ teacher.name ++ " ตำแหน่ง " ++ teacher.position
    ++ " สังกัด " ++ schoolName
  let para1 := drawParagraphContinuous fontReg fontSize lineHeight margin contentWidth indent
    p1identity y5 true
  let startDate := formatDateThaiStr req.startDate
  let endDate := formatDateThaiStr req.endDate
  let timeText :=
    (match req.startTime with
     | some t => if t = "" then "" else " เวลา " ++ t ++ " น."
     | none => "")
    ++ (match req.endTime with
     | some t => if t = "" then "" else " ถึงเวลา " ++ t ++ " น."
     | none => "")
  let p1request :=
    if req.type = "Late" ∨ req.type = "OffCampus" then
      "มีความประสงค์ขอ" ++ getLeaveTypeName req.type ++ " เนื่องจาก " ++ req.reason
        ++ " ตั้งแต่วันที่ " ++ startDate ++ " " ++ timeText ++ " ถึงวันที่ " ++ endDate
    else
      "ขอลา" ++ getLeaveTypeName req.type ++ " เนื่องจาก " ++ req.reason
        ++ " ตั้งแต่วันที่ " ++ startDate ++ " ถึงวันที่ " ++ endDate
        ++ " มีกำหนด " ++ toString stats.currentDays ++ " วัน"
  let para2 := drawParagraphContinuous fontReg fontSize lineHeight margin contentWidth indent
    p1request para1.2 false
  let lastStart :=
    match stats.lastLeave with
    | some ll => formatDateThaiStr ll.startDate
    | none => "...................."
  let lastEnd :=
    match stats.lastLeave with
    | some ll => formatDateThaiStr ll.endDate
    | none => "...................."
  let lastDays :=
    match stats.lastLeave with
    | some _ => toString stats.lastLeaveDays
    | none => "..."
  let p1history := "ข้าพเจ้าได้ลาครั้งสุดท้ายตั้งแต่วันที่ " ++ lastStart ++ " ถึงวันที่ "
    ++ lastEnd ++ " มีกำหนด " ++ lastDays ++ " วัน"
  let para3 := drawParagraphContinuous fontReg fontSize lineHeight margin contentWidth indent
    p1history para2.2 false
  let y6 := para3.2 - lineHeight * (1 / 2)
  let p2contact := "ในระหว่างลาติดต่อข้าพเจ้าได้ที่ " ++ jsOr req.contactInfo "-"
    ++ " เบอร์โทรศัพท์ " ++ jsOr req.mobilePhone "-"
  let para4 := drawParagraphContinuous fontReg fontSize lineHeight margin contentWidth indent
    p2contact y6 true
  let p5op := PdfOp.text "จึงเรียนมาเพื่อโปรดพิจารณา" (margin + indent)
    (para4.2 - lineHeight) fontSize
  let y7 := para4.2 - lineHeight * 3
  let dirX := width / 2 + 20
  let dirBoxWidth : ℚ := 220
  let blockCenterX := dirX + dirBoxWidth / 2
  let closingLabel := "ขอแสดงความนับถือ"
  let closingOp := PdfOp.text closingLabel (blockCenterX - fontReg closingLabel fontSize / 2)
    y7 fontSize
  let y8 := y7 - 40
  let tSigOps := teacherSignatureOps teacherSignatureBase64 embedPng fontReg blockCenterX y8
  let y9 := y8 - 20
  let teacherNameLine := "( " ++ teacher.name ++ " )"
  let tNameOp := PdfOp.text teacherNameLine
    (blockCenterX - fontReg teacherNameLine fontSize / 2) y9 fontSize
  let y10 := y9 - lineHeight
  let tPosLine := "ตำแหน่ง " ++ teacher.position
  let tPosOp := PdfOp.text tPosLine (blockCenterX - fontReg tPosLine fontSize / 2) y10 fontSize
  let tableTop := y10 - lineHeight * 2
  garudaOps officialGarudaBase64 fetchedGaruda embedPng embedJpg
    ++ (titleOp :: writeAtOps) ++ (dateOp :: subjOps) ++ dearOps
    ++ para1.1 ++ para2.1 ++ para3.1
    ++ para4.1 ++ (p5op :: closingOp :: tSigOps)
    ++ (tNameOp :: tPosOp :: tableOps req stats fontReg tableTop)
    ++ directorSectionOps req directorName directorSignatureBase64 directorSignatureScale
        directorSignatureYOffset embedPng fontReg tableTop width

/-- C6: a corrupt optional image payload whose embed fails is recovered
locally: the director-command stamp with a failing signature embed emits
exactly the operations it emits with no signature at all; the leave-form
teacher signature block emits nothing (the catch swallows the failure); and
the leave form still performs the whole remaining layout, its operation list
being one shorter than the no-signature run only by the dotted placeholder. -/
theorem corruptImage_recovered (pageWidth : ℚ) (commandText directorName : String)
    (schoolName schoolLogoBase64 : Option String) (sig : String)
    (signatureScale signatureYOffset : ℚ) (todayText : String)
    (req : LeaveRequest) (stats : LeaveStats) (teacher : Teacher)
    (schoolName2 directorName2 : String) (directorSig garuda : Option String)
    (dScale dYOff : ℚ) (fetchedGaruda : Option PdfImage) (todayLine : String)
    (blockX sigY : ℚ)
    (embedPng embedJpg : List Nat → Option PdfImage) (fontReg fontBold : String → ℚ → ℚ)
    (hsig : sig ≠ "") (hfail : embedPng (dataURItoUint8Array sig) = none) :
    stampPdfDocumentOps pageWidth commandText directorName schoolName schoolLogoBase64
        (some sig) signatureScale signatureYOffset todayText embedPng embedJpg fontReg
      = stampPdfDocumentOps pageWidth commandText directorName schoolName schoolLogoBase64
        none signatureScale signatureYOffset todayText embedPng embedJpg fontReg
    ∧ teacherSignatureOps (some sig) embedPng fontReg blockX sigY = []
    ∧ (generateOfficialLeavePdfOps req stats teacher schoolName2 directorName2 directorSig
          (some sig) garuda dScale dYOff fetchedGaruda todayLine embedPng embedJpg
          fontReg fontBold).length + 1
      = (generateOfficialLeavePdfOps req stats teacher schoolName2 directorName2 directorSig
          none garuda dScale dYOff fetchedGaruda todayLine embedPng embedJpg
          fontReg fontBold).length := by
  refine ⟨?_, ?_, ?_⟩
  · simp [stampPdfDocumentOps, hfail, hsig]
  · simp [teacherSignatureOps, hfail, hsig]
  · simp [generateOfficialLeavePdfOps, teacherSignatureOps, hfail, hsig]
    omega

def noEmbed : List Nat → Option PdfImage := fun _ => none

/-- The concrete scenario of the specification: a Sick request from 2023-09-15
to 2023-09-16. -/
def sampleSickReq : LeaveRequest :=
  ⟨"Sick", "Pending", "2023-09-15", "2023-09-16", none, none, "ไข้หวัด", none, none, none⟩

/-- Stats bundle with three prior sick days and the current day count computed
by `calculateDays` exactly as `generatePdf` does (LeaveSystem.tsx line 134). -/
def sampleSickStats : LeaveStats :=
  ⟨(calculateDays "2023-09-15" "2023-09-16").getD 0, 3, 0, 0, 0, 0, none, 0⟩

theorem corruptImage_recovered_witness :
    stampPdfDocumentOps 595 "คำสั่ง" "ผอ" none none (some "QUJD") 1 0 "วันนี้"
        noEmbed noEmbed lenFont
      = stampPdfDocumentOps 595 "คำสั่ง" "ผอ" none none none 1 0 "วันนี้"
        noEmbed noEmbed lenFont
    ∧ teacherSignatureOps (some "QUJD") noEmbed lenFont 0 0 = []
    ∧ (generateOfficialLeavePdfOps sampleSickReq sampleSickStats ⟨"ครูสมชาย", "ครู"⟩
          "โรงเรียนทดสอบ" "ผอ" none (some "QUJD") none 1 0 none "วันนี้" noEmbed noEmbed
          lenFont lenFont).length + 1
      = (generateOfficialLeavePdfOps sampleSickReq sampleSickStats ⟨"ครูสมชาย", "ครู"⟩
          "โรงเรียนทดสอบ" "ผอ" none none none 1 0 none "วันนี้" noEmbed noEmbed
          lenFont lenFont).length :=
  corruptImage_recovered 595 "คำสั่ง" "ผอ" none none "QUJD" 1 0 "วันนี้"
    sampleSickReq sampleSickStats ⟨"ครูสมชาย", "ครู"⟩ "โรงเรียนทดสอบ" "ผอ" none none 1 0
    none "วันนี้" 0 0 noEmbed noEmbed lenFont lenFont (by decide) rfl

/-- C9: for a request that is neither Late nor OffCampus, every rendered
statistics row shows a prior count, the this-request count rendered as a dash
exactly when it is zero, and their sum as the total; in the concrete Sick
scenario (2023-09-15 to 2023-09-16, three prior sick days, current day count
by the inclusive rule) the sick row shows prior 3, this-request 2, total 5. -/
theorem renderedStatsTable_rows (req : LeaveRequest) (stats : LeaveStats)
    (hl : req.type ≠ "Late") (ho : req.type ≠ "OffCampus") :
    (∀ row ∈ renderedStatsTable req stats, ∃ prev curr : Int,
      row.2.1 = toString prev
      ∧ row.2.2.1 = (if curr > 0 then toString curr else "-")
      ∧ row.2.2.2 = toString (prev + curr))
    ∧ (renderedStatsTable sampleSickReq sampleSickStats).head?
        = some ("ป่วย", "3", "2", "5") := by
  constructor
  · intro row hrow
    rw [renderedStatsTable, if_neg (by simp [hl, ho])] at hrow
    simp only [List.map_cons, List.map_nil, List.mem_cons, List.not_mem_nil, or_false] at hrow
    rcases hrow with h | h | h
    · exact ⟨stats.prevSick, (if req.type = "Sick" then stats.currentDays else 0),
        by rw [h], by rw [h], by rw [h]⟩
    · exact ⟨stats.prevPersonal, (if req.type = "Personal" then stats.currentDays else 0),
        by rw [h], by rw [h], by rw [h]⟩
    · exact ⟨stats.prevMaternity, (if req.type = "Maternity" then stats.currentDays else 0),
        by rw [h], by rw [h], by rw [h]⟩
  · have hc : calculateDays "2023-09-15" "2023-09-16" = some 2 :=
      (calculateDays_formula "2023-09-15" "2023-09-16" 19615 19616
        (by decide) (by decide) (by decide) (by decide)).trans (by decide)
    have hs : sampleSickStats = ⟨2, 3, 0, 0, 0, 0, none, 0⟩ := by
      simp only [sampleSickStats, hc, Option.getD_some]
    rw [hs]
    decide

theorem renderedStatsTable_rows_witness :
    (∀ row ∈ renderedStatsTable sampleSickReq sampleSickStats, ∃ prev curr : Int,
      row.2.1 = toString prev
      ∧ row.2.2.1 = (if curr > 0 then toString curr else "-")
      ∧ row.2.2.2 = toString (prev + curr))
    ∧ (renderedStatsTable sampleSickReq sampleSickStats).head?
        = some ("ป่วย", "3", "2", "5") :=
  renderedStatsTable_rows sampleSickReq sampleSickStats (by decide) (by decide)

theorem str_data_append (a b : String) : (a ++ b).data = a.data ++ b.data := rfl

theorem paren_wrap_ne_dotline (n : String) :
    ("( " ++ n ++ " )") ≠ "(.......................................................)" := by
  intro h
  have h0 : ("( " ++ n ++ " )").data.getD 1 'x' = ' ' := rfl
  have h1 : ("(.......................................................)" : String).data.getD 1 'x'
      = '.' := rfl
  have h2 : ' ' = '.' :=
    (h0.symm.trans (congrArg (fun s => s.data.getD 1 'x') h)).trans h1
  exact absurd h2 (by decide)

theorem thaidate_ne_dotline (d : String) :
    ("วันที่ " ++ d) ≠ "(.......................................................)" := by
  intro h
  have h0 : ("วันที่ " ++ d).data.getD 0 'x' = 'ว' := rfl
  have h1 : ("(.......................................................)" : String).data.getD 0 'x'
      = '(' := rfl
  have h2 : 'ว' = '(' :=
    (h0.symm.trans (congrArg (fun s => s.data.getD 0 'x') h)).trans h1
  exact absurd h2 (by decide)

/-- C10: an image operation appears in the director decision box exactly when
the request status is "Approved" and a non-empty, decodable signature payload
is supplied — for any other status the signature is omitted even with valid
bytes — and the box never contains the dotted placeholder line used by the
teacher block. -/
theorem directorSignature_only_when_approved (req : LeaveRequest) (directorName : String)
    (directorSignatureBase64 : Option String) (dScale dYOff : ℚ)
    (embedPng : List Nat → Option PdfImage) (font : String → ℚ → ℚ)
    (tableTop pageWidth : ℚ) :
    ((directorSectionOps req directorName directorSignatureBase64 dScale dYOff embedPng font
        tableTop pageWidth).any (fun op => op.isImage) = true
      ↔ req.status = "Approved" ∧ ∃ sig, directorSignatureBase64 = some sig ∧ sig ≠ ""
          ∧ ∃ img, embedPng (dataURItoUint8Array sig) = some img)
    ∧ ∀ op ∈ directorSectionOps req directorName directorSignatureBase64 dScale dYOff embedPng
        font tableTop pageWidth, ∀ x y sz,
        op ≠ PdfOp.text "(.......................................................)" x y sz := by
  constructor
  · simp only [directorSectionOps, List.any_append, List.any_cons, List.any_nil,
      PdfOp.isImage, Bool.or_false, Bool.false_or]
    by_cases happ : req.status = "Approved"
    · simp only [happ, if_pos rfl, true_and]
      cases directorSignatureBase64 with
      | none => simp
      | some sig =>
        by_cases hs : sig = ""
        · subst hs
          simp
        · simp only [if_neg hs]
          cases hemb : embedPng (dataURItoUint8Array sig) with
          | none => simp [hemb, hs]
          | some img => simp [hemb, hs, PdfOp.isImage]
    · rw [if_neg happ]
      simp [happ]
  · intro op hop x y sz
    simp only [directorSectionOps] at hop
    simp only [List.mem_append, List.mem_cons, List.not_mem_nil, or_false] at hop
    rcases hop with ((h | h | h | h) | h) | (h | h | h)
    · subst h; intro hc; cases hc
    · subst h; intro hc; injection hc with h1; exact absurd h1 (by decide)
    · subst h
      intro hc
      injection hc with h1
      split at h1 <;> exact absurd h1 (by decide)
    · subst h
      intro hc
      injection hc with h1
      split at h1 <;> exact absurd h1 (by decide)
    · -- member of the signature branch: always an image operation
      intro hc
      subst hc
      revert h
      split
      · cases directorSignatureBase64 with
        | none => simp
        | some sig =>
          by_cases hs : sig = ""
          · simp [hs]
          · simp only [if_neg hs]
            cases hemb : embedPng (dataURItoUint8Array sig) with
            | none => simp
            | some img => simp
      · simp
    · subst h
      intro hc
      injection hc with h1
      exact absurd h1 (paren_wrap_ne_dotline directorName)
    · subst h; intro hc; injection hc with h1; exact absurd h1 (by decide)
    · subst h
      intro hc
      injection hc with h1
      exact absurd h1 (thaidate_ne_dotline _)
